import Mathlib

/-!
Verification of the `gitdata` package: a shallow embedding of its fetch layer
(`gitdata/fetch.py`), processing layer (`gitdata/process.py`) and CLI loop
(`gitdata/cli.py`), together with theorems settling the specified properties.

Modelling conventions:
- A pandas DataFrame is a header (list of column names) plus a list of rows,
  each row a list of string cells aligned with the header.
- The filesystem under the save directory is an association list from file
  path to file content; a content is a list of CSV lines, each line a list
  of cells (the header line of a newly created file is such a line too).
- Python exceptions are `Except`/sum results; `requests` traffic is an
  oracle function from attempt number to the attempt's outcome.
- Python `str.lower` is modelled on ASCII letters, and string ordering (used
  by `pandas.groupby`'s sorted group keys) by code-point comparison; both are
  written as structural recursions over `List Char` so they evaluate in the
  kernel.
-/

namespace Gitdata

/-! ### Basic string helpers -/

/-- ASCII lowercase of one character, as Python's `str.lower` acts on ASCII. -/
def lowerChar (c : Char) : Char :=
  if 65 ≤ c.toNat ∧ c.toNat ≤ 90 then Char.ofNat (c.toNat + 32) else c

/-- Lowercase of a string (ASCII), modelling Python's `str.lower()`. -/
def lowerStr (s : String) : String :=
  ⟨s.data.map lowerChar⟩

/-- The test `name.lower().endswith('.csv')` from `fetch.py` line 92. -/
def csvMatch (name : String) : Bool :=
  List.isSuffixOf ".csv".data (lowerStr name).data

/-- Code-point comparison of character lists (Python string `<=`). -/
def charListLe : List Char → List Char → Bool
  | [], _ => true
  | _ :: _, [] => false
  | a :: as, b :: bs =>
    if a.toNat < b.toNat then true
    else if b.toNat < a.toNat then false
    else charListLe as bs

/-- Code-point comparison of strings. -/
def strLe (a b : String) : Bool := charListLe a.data b.data

/-- Does `pat` occur as a substring? (`'rate limit' in text`, `fetch.py` line 156).
`startsHere s p` checks occurrence at the front. -/
def startsHere : List Char → List Char → Bool
  | _, [] => true
  | [], _ :: _ => false
  | c :: cs, p :: ps => c == p && startsHere cs ps

/-- Occurrence of `pat` anywhere in `s`. -/
def listHasSubstr (s pat : List Char) : Bool :=
  match s with
  | [] => pat.isEmpty
  | _ :: rest => startsHere s pat || listHasSubstr rest pat

/-- Python `pat in s` for strings. -/
def hasSubstr (s pat : String) : Bool := listHasSubstr s.data pat.data

/-! ### Fetch layer: `GitHubFetcher._make_request` (`fetch.py` lines 140-185)

The network is an oracle `net : Nat → Attempt` giving the outcome of the
`self.session.get` call on each loop iteration. -/

/-- Outcome of one `session.get` call: a response, or a raised
`requests.exceptions.Timeout`, or another `requests.exceptions.RequestException`. -/
inductive Attempt : Type where
  | response (status : Nat) (body : String)
  | timeout
  | reqError (msg : String)
deriving DecidableEq

/-- How `_make_request` terminates: a returned response or a raised exception. -/
inductive ReqOutcome : Type where
  | ok (status : Nat) (body : String)
  | rateLimitExceeded
  | timeoutRaised
  | reqErrorRaised (msg : String)
  | maxRetriesExceeded
deriving DecidableEq

/-- The test `response.status_code == 403 and 'rate limit' in response.text.lower()`. -/
def isRateLimited (status : Nat) (body : String) : Bool :=
  status == 403 && hasSubstr (lowerStr body) "rate limit"

/-- A trace of one `_make_request` call: how it ended, the `time.sleep`
durations performed in order, and how many `session.get` calls were made. -/
structure ReqTrace where
  outcome : ReqOutcome
  sleeps : List Nat
  attempts : Nat
deriving DecidableEq

/-- The `for attempt in range(max_retries)` loop of `_make_request`, at
iteration `attempt` with `remaining` iterations of the range left (the loop
is entered with `remaining = max_retries` and `attempt = 0`); the final
`raise Exception("Maximum retries exceeded")` is the fall-through when the
range is exhausted. -/
def request_loop (net : Nat → Attempt) (max_retries : Nat) :
    Nat → Nat → ReqTrace
  | 0, _ => ⟨.maxRetriesExceeded, [], 0⟩
  | remaining + 1, attempt =>
    match net attempt with
    | .response s b =>
      if isRateLimited s b then
        if attempt < max_retries - 1 then
          let t := request_loop net max_retries remaining (attempt + 1)
          ⟨t.outcome, 60 :: t.sleeps, t.attempts + 1⟩
        else ⟨.rateLimitExceeded, [], 1⟩
      else ⟨.ok s b, [], 1⟩
    | .timeout =>
      if attempt < max_retries - 1 then
        let t := request_loop net max_retries remaining (attempt + 1)
        ⟨t.outcome, 2 :: t.sleeps, t.attempts + 1⟩
      else ⟨.timeoutRaised, [], 1⟩
    | .reqError m =>
      if attempt < max_retries - 1 then
        let t := request_loop net max_retries remaining (attempt + 1)
        ⟨t.outcome, 2 :: t.sleeps, t.attempts + 1⟩
      else ⟨.reqErrorRaised m, [], 1⟩

/-- The call `GitHubFetcher._make_request(url, max_retries=3)`. -/
def make_request (net : Nat → Attempt) (max_retries : Nat := 3) : ReqTrace :=
  request_loop net max_retries max_retries 0

/-- An attempt that does not end the loop with a return: a rate-limited
response, a timeout, or another request exception. -/
def attemptFails (a : Attempt) : Bool :=
  match a with
  | .response s b => isRateLimited s b
  | .timeout => true
  | .reqError _ => true

/-- Attempts that sleep 60 seconds before retrying (rate-limited responses). -/
def attemptRateLimited (a : Attempt) : Bool :=
  match a with
  | .response s b => isRateLimited s b
  | _ => false

/-- Attempts that sleep 2 seconds before retrying (network failures). -/
def attemptNetFail (a : Attempt) : Bool :=
  match a with
  | .timeout => true
  | .reqError _ => true
  | _ => false

/-- Did `_make_request` return a response (as opposed to raising)? -/
def ReqOutcome.isOk : ReqOutcome → Bool
  | .ok _ _ => true
  | _ => false

/-! ### Fetch layer: the recursive walk (`fetch.py` lines 59-112) -/

/-- The file descriptor built at `fetch.py` lines 94-99. -/
structure FileInfo where
  name : String
  path : String
  download_url : String
  size : Nat
deriving DecidableEq

mutual
/-- A repository tree as served by the contents API: each directory listing is
a sequence of items of type 'file' or 'dir'. -/
inductive Entry : Type where
  | file (name path download_url : String) (size : Nat)
  | dir (path : String) (children : EntryList)
inductive EntryList : Type where
  | nil
  | cons (e : Entry) (es : EntryList)
end

mutual
/-- The walk on a single item of a directory listing: a file item contributes
its descriptor when `name.lower().endswith('.csv')`, a dir item contributes
the recursive walk of its listing. -/
def walkEntry : Entry → List FileInfo
  | .file n p u s => if csvMatch n then [⟨n, p, u, s⟩] else []
  | .dir _ ch => get_csv_files_recursive ch
/-- The function `GitHubFetcher._get_csv_files_recursive`, applied to a directory listing:
the loop at `fetch.py` lines 91-105. -/
def get_csv_files_recursive : EntryList → List FileInfo
  | .nil => []
  | .cons e es => walkEntry e ++ get_csv_files_recursive es
end

mutual
/-- All file items of a tree (any name), with their descriptors, in walk
order; directory items contribute none of their own. -/
def allFilesEntry : Entry → List FileInfo
  | .file n p u s => [⟨n, p, u, s⟩]
  | .dir _ ch => allFilesList ch
/-- All file items of a directory listing. -/
def allFilesList : EntryList → List FileInfo
  | .nil => []
  | .cons e es => allFilesEntry e ++ allFilesList es
end

/-- The function `GitHubFetcher.fetch_csv_files` (`fetch.py` lines 24-57): check the
repository lookup's status, then walk the tree from the root. `repoStatus` is
the status code of the `/repos/{username}/{repository}` request. -/
def fetch_csv_files (username repository : String) (repoStatus : Nat)
    (tree : EntryList) : Except String (List FileInfo) :=
  if repoStatus = 404 then
    .error ("Repository " ++ username ++ "/" ++ repository ++ " not found or is not public")
  else if repoStatus ≠ 200 then
    .error ("Failed to access repository: HTTP " ++ toString repoStatus)
  else
    .ok (get_csv_files_recursive tree)

/-! ### Process layer (`process.py`)

A downloaded-and-parsed CSV payload is a `DataFrame`; the save directory is an
association list `FS` from path to file content. -/

/-- A parsed CSV table: header and rows of string cells. -/
structure DataFrame where
  columns : List String
  rows : List (List String)
deriving DecidableEq

/-- The pandas `DataFrame.empty` test: true when either axis has length 0. -/
def DataFrame.empty (df : DataFrame) : Bool :=
  df.rows.isEmpty || df.columns.isEmpty

/-- The files under the save directory: path to list of CSV lines. -/
abbrev FS := List (String × List (List String))

/-- Existence check `os.path.exists` joined with reading a file's lines. -/
def lookupFile : FS → String → Option (List (List String))
  | [], _ => none
  | (q, c) :: rest, p => if q = p then some c else lookupFile rest p

/-- Writing a file's lines (replacing existing content or creating the file). -/
def setFile : FS → String → List (List String) → FS
  | [], p, c => [(p, c)]
  | (q, d) :: rest, p, c =>
    if q = p then (p, c) :: rest else (q, d) :: setFile rest p c

/-- The list `DataProcessor.ticker_columns` (`process.py` line 30). -/
def ticker_columns : List String :=
  ["symbol", "ticker", "Symbol", "Ticker", "SYMBOL", "TICKER"]

/-- The loop at `process.py` lines 104-108: the first candidate name that
occurs among the table's columns. -/
def findTickerCol (cols : List String) : Option String :=
  ticker_columns.find? (fun t => cols.contains t)

/-- The method `DataProcessor._clean_dataframe` (`process.py` lines 91-122): identify the
ticker column and rename it to `ticker` (pandas `rename` replaces every
occurrence of the label). -/
def clean_dataframe (df : DataFrame) : Option DataFrame :=
  match findTickerCol df.columns with
  | none => none
  | some tc => some ⟨df.columns.map (fun c => if c = tc then "ticker" else c), df.rows⟩

/-- Index of the `ticker` column in a header. -/
def tickerIdx (cols : List String) : Nat :=
  cols.findIdx (fun c => c = "ticker")

/-- The grouping key of a row: its cell in the ticker column. -/
def tickerValue (tIdx : Nat) (row : List String) : String :=
  row.getD tIdx ""

/-- Insertion into a sorted list of keys (code-point order). -/
def sortInsert (x : String) : List String → List String
  | [] => [x]
  | y :: ys => if strLe x y then x :: y :: ys else y :: sortInsert x ys

/-- Insertion sort by code-point order. -/
def sortKeys : List String → List String
  | [] => []
  | x :: xs => sortInsert x (sortKeys xs)

/-- The group keys of `df.groupby('ticker')`: the distinct ticker values, in
sorted order (pandas groups are sorted by key). -/
def groupKeys (tIdx : Nat) (rows : List (List String)) : List String :=
  (sortKeys (rows.map (tickerValue tIdx))).dedup

/-- The rows of one group, in arrival order. -/
def groupRows (tIdx : Nat) (rows : List (List String)) (k : String) : List (List String) :=
  rows.filter (fun r => tickerValue tIdx r = k)

/-- The grouping `df.groupby('ticker')` as a keyed list of groups. -/
def groupsOf (tIdx : Nat) (rows : List (List String)) : List (String × List (List String)) :=
  (groupKeys tIdx rows).map (fun k => (k, groupRows tIdx rows k))

/-- The result dictionary built for one ticker (`process.py` lines 155-160). -/
structure TickerResult where
  ticker : String
  rows_processed : Nat
  duplicates_removed : Nat
  output_file : String
deriving DecidableEq

/-- The path `os.path.join(self.save_dir, f"{ticker}.csv")` (`process.py` line 146). -/
def outputPath (save_dir ticker : String) : String :=
  save_dir ++ "/" ++ ticker ++ ".csv"

/-- The body of the per-ticker loop of `_process_tickers` (`process.py` lines
140-164): drop the ticker column, then append to `<ticker>.csv` without a
header when the file exists, else create it with a header line. -/
def processGroups (save_dir : String) (cols : List String) (tIdx : Nat) :
    List (String × List (List String)) → FS → List TickerResult × FS
  | [], fs => ([], fs)
  | (t, rows) :: gs, fs =>
    let dropped := rows.map (fun r => r.eraseIdx tIdx)
    let output_file := outputPath save_dir t
    let fs' :=
      match lookupFile fs output_file with
      | some old => setFile fs output_file (old ++ dropped)
      | none => setFile fs output_file (cols.eraseIdx tIdx :: dropped)
    let res : TickerResult := ⟨t, dropped.length, 0, output_file⟩
    let pr := processGroups save_dir cols tIdx gs fs'
    (res :: pr.1, pr.2)

/-- The method `DataProcessor._process_tickers` (`process.py` lines 124-166).
`df.groupby('ticker')` raises when the label is absent or duplicated; on the
one-label case the loop writes each group and collects its result. -/
def process_tickers (save_dir : String) (df : DataFrame) (fs : FS) :
    Except String (List TickerResult × FS) :=
  if df.columns.count "ticker" = 1 then
    .ok (processGroups save_dir df.columns (tickerIdx df.columns)
      (groupsOf (tickerIdx df.columns) df.rows) fs)
  else if df.columns.count "ticker" = 0 then
    .error "KeyError: 'ticker'"
  else
    .error "Grouper for 'ticker' not 1-dimensional"

/-- The dictionary returned by `process_csv_file`: a success entry or an
error entry. -/
inductive ProcResult : Type where
  | ok (ticker : String) (duplicates_removed rows_processed : Nat)
  | err (error : String)
deriving DecidableEq

/-- The method `DataProcessor.process_csv_file` (`process.py` lines 35-89). `downloaded`
is the outcome of `download_csv_content` plus `pd.read_csv`: an exception
message or a parsed table. Every exception inside the body is caught and
turned into an error result; the filesystem is left as the body left it. -/
def process_csv_file (save_dir fname : String)
    (downloaded : Except String DataFrame) (fs : FS) : ProcResult × FS :=
  match downloaded with
  | .error e => (.err ("Error processing " ++ fname ++ ": " ++ e), fs)
  | .ok df =>
    if df.empty then
      (.err ("File " ++ fname ++ " is empty"), fs)
    else
      match clean_dataframe df with
      | none => (.err ("File " ++ fname ++ " has no valid data after cleaning"), fs)
      | some cdf =>
        if cdf.empty then
          (.err ("File " ++ fname ++ " has no valid data after cleaning"), fs)
        else
          match process_tickers save_dir cdf fs with
          | .error e => (.err ("Error processing " ++ fname ++ ": " ++ e), fs)
          | .ok (results, fs') =>
            match results with
            | [] => (.err ("No valid ticker data found in " ++ fname), fs')
            | r :: _ =>
              (.ok r.ticker r.duplicates_removed r.rows_processed, fs')

/-! ### CLI loop (`cli.py` lines 58-82) -/

/-- The per-file loop of `gitdata_cli`: process each file, counting successes
and failures; a failure is reported and the loop continues with the next
file. Returns (files processed, files skipped, final filesystem). -/
def cliLoop (save_dir : String) :
    List (String × Except String DataFrame) → FS → Nat × Nat × FS
  | [], fs => (0, 0, fs)
  | (fname, dl) :: rest, fs =>
    let r := process_csv_file save_dir fname dl fs
    let t := cliLoop save_dir rest r.2
    match r.1 with
    | .ok _ _ _ => (t.1 + 1, t.2.1, t.2.2)
    | .err _ => (t.1, t.2.1 + 1, t.2.2)

/-! ### Helper lemmas: the retry loop -/

/-- The loop makes at most `remaining` calls. -/
theorem request_loop_attempts_le (net : Nat → Attempt) (max_retries : Nat) :
    ∀ remaining attempt, (request_loop net max_retries remaining attempt).attempts ≤ remaining := by
  intro remaining
  induction remaining with
  | zero => intro attempt; simp [request_loop]
  | succ r ih =>
    intro attempt
    simp only [request_loop]
    cases net attempt with
    | response s b =>
      by_cases hr : isRateLimited s b = true
      · simp only [hr, if_true]
        by_cases hlt : attempt < max_retries - 1
        · simp only [hlt, if_true]
          exact Nat.succ_le_succ (ih (attempt + 1))
        · simp [hlt]
      · simp [hr]
    | timeout =>
      by_cases hlt : attempt < max_retries - 1
      · simp only [hlt, if_true]
        exact Nat.succ_le_succ (ih (attempt + 1))
      · simp [hlt]
    | reqError m =>
      by_cases hlt : attempt < max_retries - 1
      · simp only [hlt, if_true]
        exact Nat.succ_le_succ (ih (attempt + 1))
      · simp [hlt]

/-- Every sleep the loop performs is 60 seconds for a rate-limited response
and 2 seconds for a network failure, and the sleep at position `i` belongs to
the attempt numbered `attempt + i`. -/
theorem request_loop_sleeps (net : Nat → Attempt) (max_retries : Nat) :
    ∀ remaining attempt i,
      i < (request_loop net max_retries remaining attempt).sleeps.length →
      ((request_loop net max_retries remaining attempt).sleeps.getD i 0 = 60 ∧
        attemptRateLimited (net (attempt + i)) = true) ∨
      ((request_loop net max_retries remaining attempt).sleeps.getD i 0 = 2 ∧
        attemptNetFail (net (attempt + i)) = true) := by
  intro remaining
  induction remaining with
  | zero => intro attempt i h; simp [request_loop] at h
  | succ r ih =>
    intro attempt i h
    simp only [request_loop] at h ⊢
    cases hnet : net attempt with
    | response s b =>
      simp only [hnet] at h ⊢
      by_cases hr : isRateLimited s b = true
      · simp only [hr, if_true] at h ⊢
        by_cases hlt : attempt < max_retries - 1
        · simp only [hlt, if_true] at h ⊢
          match i with
          | 0 =>
            left
            refine ⟨rfl, ?_⟩
            simp [attemptRateLimited, hnet, hr]
          | i + 1 =>
            simp only [List.length_cons, Nat.add_lt_add_iff_right] at h
            have := ih (attempt + 1) i h
            simpa [Nat.add_assoc, Nat.add_comm 1 i] using this
        · simp [hlt] at h
      · simp [hr] at h
    | timeout =>
      simp only [hnet] at h ⊢
      by_cases hlt : attempt < max_retries - 1
      · simp only [hlt, if_true] at h ⊢
        match i with
        | 0 =>
          right
          refine ⟨rfl, ?_⟩
          simp [attemptNetFail, hnet]
        | i + 1 =>
          simp only [List.length_cons, Nat.add_lt_add_iff_right] at h
          have := ih (attempt + 1) i h
          simpa [Nat.add_assoc, Nat.add_comm 1 i] using this
      · simp [hlt] at h
    | reqError m =>
      simp only [hnet] at h ⊢
      by_cases hlt : attempt < max_retries - 1
      · simp only [hlt, if_true] at h ⊢
        match i with
        | 0 =>
          right
          refine ⟨rfl, ?_⟩
          simp [attemptNetFail, hnet]
        | i + 1 =>
          simp only [List.length_cons, Nat.add_lt_add_iff_right] at h
          have := ih (attempt + 1) i h
          simpa [Nat.add_assoc, Nat.add_comm 1 i] using this
      · simp [hlt] at h

/-- If every attempt the loop can make fails, the loop does not return a
response. -/
theorem request_loop_all_fail (net : Nat → Attempt) (max_retries : Nat) :
    ∀ remaining attempt, remaining + attempt = max_retries →
      (∀ i, attempt ≤ i → i < max_retries → attemptFails (net i) = true) →
      (request_loop net max_retries remaining attempt).outcome.isOk = false := by
  intro remaining
  induction remaining with
  | zero => intro attempt _ _; simp [request_loop, ReqOutcome.isOk]
  | succ r ih =>
    intro attempt hsum hfail
    have hlt : attempt < max_retries := by omega
    have hfa : attemptFails (net attempt) = true := hfail attempt (Nat.le_refl _) hlt
    simp only [request_loop]
    cases hnet : net attempt with
    | response s b =>
      have hr : isRateLimited s b = true := by
        simpa [attemptFails, hnet] using hfa
      simp only [hr, if_true]
      by_cases hlt1 : attempt < max_retries - 1
      · simp only [hlt1, if_true]
        exact ih (attempt + 1) (by omega) (fun i h1 h2 => hfail i (by omega) h2)
      · simp [hlt1, ReqOutcome.isOk]
    | timeout =>
      by_cases hlt1 : attempt < max_retries - 1
      · simp only [hlt1, if_true]
        exact ih (attempt + 1) (by omega) (fun i h1 h2 => hfail i (by omega) h2)
      · simp [hlt1, ReqOutcome.isOk]
    | reqError m =>
      by_cases hlt1 : attempt < max_retries - 1
      · simp only [hlt1, if_true]
        exact ih (attempt + 1) (by omega) (fun i h1 h2 => hfail i (by omega) h2)
      · simp [hlt1, ReqOutcome.isOk]

/-- With at least one iteration left, the loop returns or raises inside the
loop body; the fall-through raise is never the outcome. -/
theorem request_loop_no_fallthrough (net : Nat → Attempt) (max_retries : Nat) :
    ∀ remaining attempt, remaining + attempt = max_retries → 0 < remaining →
      (request_loop net max_retries remaining attempt).outcome ≠ .maxRetriesExceeded := by
  intro remaining
  induction remaining with
  | zero => intro attempt _ h; omega
  | succ r ih =>
    intro attempt hsum _
    simp only [request_loop]
    cases net attempt with
    | response s b =>
      by_cases hr : isRateLimited s b = true
      · simp only [hr, if_true]
        by_cases hlt1 : attempt < max_retries - 1
        · simp only [hlt1, if_true]
          exact ih (attempt + 1) (by omega) (by omega)
        · simp [hlt1]
      · simp [hr]
    | timeout =>
      by_cases hlt1 : attempt < max_retries - 1
      · simp only [hlt1, if_true]
        exact ih (attempt + 1) (by omega) (by omega)
      · simp [hlt1]
    | reqError m =>
      by_cases hlt1 : attempt < max_retries - 1
      · simp only [hlt1, if_true]
        exact ih (attempt + 1) (by omega) (by omega)
      · simp [hlt1]

/-! ### Helper lemmas: the recursive walk -/

mutual
/-- The walk of one item keeps exactly its file descriptors whose name
matches the case-insensitive `.csv` test. -/
theorem walkEntry_eq_filter (e : Entry) :
    walkEntry e = (allFilesEntry e).filter (fun f => csvMatch f.name) := by
  cases e with
  | file n p u s =>
    by_cases h : csvMatch n = true
    · simp [walkEntry, allFilesEntry, List.filter, h]
    · simp [walkEntry, allFilesEntry, List.filter, h]
  | dir p ch =>
    simpa [walkEntry, allFilesEntry] using walk_eq_filter ch
/-- The walk of a listing keeps exactly its file descriptors whose name
matches the case-insensitive `.csv` test. -/
theorem walk_eq_filter (t : EntryList) :
    get_csv_files_recursive t = (allFilesList t).filter (fun f => csvMatch f.name) := by
  cases t with
  | nil => simp [get_csv_files_recursive, allFilesList]
  | cons e es =>
    simp only [get_csv_files_recursive, allFilesList, List.filter_append]
    rw [walkEntry_eq_filter e, walk_eq_filter es]
end

/-! ### Helper lemmas: filesystem and grouping -/

/-- Reading after a write: the written path holds the new content, every other
path is untouched. -/
theorem lookupFile_setFile (fs : FS) (p : String) (c : List (List String)) (q : String) :
    lookupFile (setFile fs p c) q = if p = q then some c else lookupFile fs q := by
  induction fs with
  | nil => simp [setFile, lookupFile]
  | cons a rest ih =>
    obtain ⟨n, d⟩ := a
    by_cases hnp : n = p
    · subst hnp
      by_cases hq : n = q
      · subst hq
        simp [setFile, lookupFile]
      · simp [setFile, lookupFile, hq]
    · by_cases hq : n = q
      · subst hq
        have hpq : ¬ p = n := fun h => hnp h.symm
        simp [setFile, lookupFile, hnp, hpq]
      · simp [setFile, lookupFile, hnp, hq, ih]

/-- Membership in an insertion step. -/
theorem mem_sortInsert (x y : String) (l : List String) :
    y ∈ sortInsert x l ↔ y = x ∨ y ∈ l := by
  induction l with
  | nil => simp [sortInsert]
  | cons a as ih =>
    simp only [sortInsert]
    by_cases h : strLe x a = true
    · rw [if_pos h]
      simp [List.mem_cons]
    · rw [if_neg h]
      simp only [List.mem_cons, ih]
      tauto

/-- Insertion sort permutes membership. -/
theorem mem_sortKeys (y : String) (l : List String) :
    y ∈ sortKeys l ↔ y ∈ l := by
  induction l with
  | nil => simp [sortKeys]
  | cons a as ih =>
    simp [sortKeys, mem_sortInsert, ih]

/-- A key occurs among the group keys exactly when some row carries it. -/
theorem mem_groupKeys (tIdx : Nat) (rows : List (List String)) (k : String) :
    k ∈ groupKeys tIdx rows ↔ ∃ r ∈ rows, tickerValue tIdx r = k := by
  simp [groupKeys, List.mem_dedup, mem_sortKeys, List.mem_map]

/-- The group keys are pairwise distinct. -/
theorem nodup_groupKeys (tIdx : Nat) (rows : List (List String)) :
    (groupKeys tIdx rows).Nodup :=
  List.nodup_dedup _

/-- Distinct tickers get distinct output files. -/
theorem outputPath_inj (sd a b : String) (h : outputPath sd a = outputPath sd b) :
    a = b := by
  have hd : ((sd ++ "/") ++ a ++ ".csv").data = ((sd ++ "/") ++ b ++ ".csv").data := by
    have : outputPath sd a = (sd ++ "/") ++ a ++ ".csv" := by
      simp [outputPath, String.append_assoc]
    rw [this] at h
    have hb : outputPath sd b = (sd ++ "/") ++ b ++ ".csv" := by
      simp [outputPath, String.append_assoc]
    rw [hb] at h
    exact congrArg String.data h
  have hlists : (sd ++ "/").data ++ a.data ++ ".csv".data
      = (sd ++ "/").data ++ b.data ++ ".csv".data := hd
  have h1 : (sd ++ "/").data ++ a.data = (sd ++ "/").data ++ b.data :=
    List.append_cancel_right hlists
  exact String.ext (List.append_cancel_left h1)

/-- The results collected by the per-ticker loop, one per group in order,
independent of the filesystem. -/
theorem processGroups_results (sd : String) (cols : List String) (tIdx : Nat) :
    ∀ (gs : List (String × List (List String))) (fs : FS),
      (processGroups sd cols tIdx gs fs).1 =
        gs.map (fun g => ⟨g.1, g.2.length, 0, outputPath sd g.1⟩) := by
  intro gs
  induction gs with
  | nil => intro fs; simp [processGroups]
  | cons g gs ih =>
    intro fs
    obtain ⟨t, rows⟩ := g
    simp [processGroups, ih, List.length_map]

/-- Paths not named by any group are untouched by the loop. -/
theorem processGroups_frame (sd : String) (cols : List String) (tIdx : Nat) :
    ∀ (gs : List (String × List (List String))) (fs : FS) (p : String),
      (∀ g ∈ gs, outputPath sd g.1 ≠ p) →
      lookupFile (processGroups sd cols tIdx gs fs).2 p = lookupFile fs p := by
  intro gs
  induction gs with
  | nil => intro fs p _; simp [processGroups]
  | cons g gs ih =>
    intro fs p hnot
    obtain ⟨t, rows⟩ := g
    have hhead : outputPath sd t ≠ p := hnot (t, rows) (List.mem_cons_self _ _)
    have htail : ∀ g ∈ gs, outputPath sd g.1 ≠ p :=
      fun g hg => hnot g (List.mem_cons_of_mem _ hg)
    simp only [processGroups]
    cases hold : lookupFile fs (outputPath sd t) with
    | some old =>
      simp only [hold]
      rw [ih _ p htail, lookupFile_setFile]
      simp [hhead]
    | none =>
      simp only [hold]
      rw [ih _ p htail, lookupFile_setFile]
      simp [hhead]

/-- What the loop leaves at the output file of each of its groups: the prior
content (or a fresh header line) followed by the group's rows with the ticker
column dropped. -/
theorem processGroups_writes (sd : String) (cols : List String) (tIdx : Nat) :
    ∀ (gs : List (String × List (List String))) (fs : FS),
      (gs.map Prod.fst).Nodup →
      ∀ g ∈ gs,
        lookupFile (processGroups sd cols tIdx gs fs).2 (outputPath sd g.1) =
          some ((match lookupFile fs (outputPath sd g.1) with
                 | some old => old
                 | none => [cols.eraseIdx tIdx]) ++
                g.2.map (fun r => r.eraseIdx tIdx)) := by
  intro gs
  induction gs with
  | nil => intro fs _ g hg; exact absurd hg (List.not_mem_nil g)
  | cons g0 gs ih =>
    intro fs hnd g hg
    obtain ⟨t, rows⟩ := g0
    have hnd' : (gs.map Prod.fst).Nodup := (List.nodup_cons.mp hnd).2
    have htnot : t ∉ gs.map Prod.fst := (List.nodup_cons.mp hnd).1
    rcases List.mem_cons.mp hg with hgeq | hgtail
    · subst hgeq
      simp only [processGroups]
      have hfr : ∀ g' ∈ gs, outputPath sd g'.1 ≠ outputPath sd t := by
        intro g' hg' heq
        exact htnot (by
          have hfst : g'.1 = t := outputPath_inj sd g'.1 t heq
          rw [← hfst]
          exact List.mem_map_of_mem Prod.fst hg')
      cases hold : lookupFile fs (outputPath sd t) with
      | some old =>
        simp only [hold]
        rw [processGroups_frame sd cols tIdx gs _ _ hfr, lookupFile_setFile]
        simp
      | none =>
        simp only [hold]
        rw [processGroups_frame sd cols tIdx gs _ _ hfr, lookupFile_setFile]
        simp
    · have hne : outputPath sd t ≠ outputPath sd g.1 := by
        intro heq
        exact htnot (by
          have : t = g.1 := outputPath_inj sd t g.1 heq
          rw [this]
          exact List.mem_map_of_mem Prod.fst hgtail)
      simp only [processGroups]
      cases hold : lookupFile fs (outputPath sd t) with
      | some old =>
        simp only [hold]
        rw [ih _ hnd' g hgtail, lookupFile_setFile]
        simp [hne]
      | none =>
        simp only [hold]
        rw [ih _ hnd' g hgtail, lookupFile_setFile]
        simp [hne]

/-- The keys of `groupsOf` are the group keys. -/
theorem groupsOf_map_fst (tIdx : Nat) (rows : List (List String)) :
    ((groupsOf tIdx rows).map Prod.fst) = groupKeys tIdx rows := by
  simp [groupsOf, List.map_map, Function.comp_def]

/-! ### Helper lemmas: columns, indices and cleaning -/

/-- The test `l.contains a` is membership. -/
theorem contains_iff_mem (l : List String) (a : String) :
    l.contains a = true ↔ a ∈ l := by
  rw [List.contains]
  exact List.elem_iff

/-- What `find?` returning a hit means: the hit is the first element of the
list satisfying the test. -/
theorem find?_first (p : String → Bool) (d : String) :
    ∀ (l : List String) (a : String), l.find? p = some a →
      ∃ i, i < l.length ∧ l.getD i d = a ∧ p a = true ∧
        ∀ j, j < i → p (l.getD j d) = false := by
  intro l
  induction l with
  | nil => intro a h; simp [List.find?] at h
  | cons b bs ih =>
    intro a h
    by_cases hb : p b = true
    · have : a = b := by
        simp [List.find?, hb] at h
        exact h.symm
      subst this
      exact ⟨0, by simp, by simp, hb, fun j hj => absurd hj (Nat.not_lt_zero j)⟩
    · have hbf : p b = false := Bool.eq_false_iff.mpr hb
      have hfind : bs.find? p = some a := by
        simpa [List.find?_cons, hbf] using h
      obtain ⟨i, hlen, hget, hpa, hfirst⟩ := ih a hfind
      refine ⟨i + 1, by simpa using Nat.succ_lt_succ hlen, by simpa using hget, hpa, ?_⟩
      intro j hj
      match j with
      | 0 =>
        simpa using hbf
      | j + 1 =>
        simpa using hfirst j (Nat.lt_of_succ_lt_succ hj)

/-- The `ticker` label, being present, is found within the header. -/
theorem tickerIdx_lt (cols : List String) (h : "ticker" ∈ cols) :
    tickerIdx cols < cols.length := by
  rw [tickerIdx, List.findIdx_lt_length]
  exact ⟨"ticker", h, by simp⟩

/-- Cells before the erased index are unchanged. -/
theorem getD_eraseIdx_lt (d : String) :
    ∀ (l : List String) (i j : Nat), j < i →
      (l.eraseIdx i).getD j d = l.getD j d := by
  intro l
  induction l with
  | nil => intro i j _; simp [List.eraseIdx]
  | cons a as ih =>
    intro i j hj
    match i, j with
    | i + 1, 0 => simp [List.eraseIdx]
    | i + 1, j + 1 =>
      simp only [List.eraseIdx, List.getD_cons_succ]
      exact ih i j (Nat.lt_of_succ_lt_succ hj)

/-- Cells after the erased index shift down by one. -/
theorem getD_eraseIdx_ge (d : String) :
    ∀ (l : List String) (i j : Nat), i < l.length → i ≤ j →
      (l.eraseIdx i).getD j d = l.getD (j + 1) d := by
  intro l
  induction l with
  | nil => intro i j h _; simp at h
  | cons a as ih =>
    intro i j hi hj
    match i, j with
    | 0, j => simp [List.eraseIdx]
    | i + 1, j + 1 =>
      simp only [List.eraseIdx, List.getD_cons_succ]
      exact ih i j (Nat.lt_of_succ_lt_succ hi) (Nat.le_of_succ_le_succ hj)

/-- Dropping the (unique) `ticker` column removes the label entirely. -/
theorem ticker_notMem_eraseIdx :
    ∀ (l : List String), List.count "ticker" l = 1 →
      "ticker" ∉ l.eraseIdx (tickerIdx l) := by
  intro l
  induction l with
  | nil => intro h; simp at h
  | cons a as ih =>
    intro h
    by_cases ha : a = "ticker"
    · subst ha
      have hcnt : List.count "ticker" as = 0 := by
        rw [List.count_cons] at h
        simp at h
        omega
      have hnot : "ticker" ∉ as := List.count_eq_zero.mp hcnt
      have hidx : tickerIdx ("ticker" :: as) = 0 := by
        simp [tickerIdx, List.findIdx_cons]
      rw [hidx]
      simpa [List.eraseIdx] using hnot
    · have hcnt : List.count "ticker" as = 1 := by
        have hba : (a == "ticker") = false := by
          simp [beq_iff_eq, ha]
        rw [List.count_cons, hba] at h
        simpa using h
      have hidx : tickerIdx (a :: as) = tickerIdx as + 1 := by
        have hpa : (decide (a = "ticker")) = false := by simp [ha]
        simp [tickerIdx, List.findIdx_cons, hpa]
      rw [hidx]
      simp only [List.eraseIdx, List.mem_cons]
      rintro (hc | hc)
      · exact ha hc.symm
      · exact ih hcnt hc

/-- The method `_clean_dataframe` keeps the rows, keeps the header length, and makes
`ticker` one of the column labels. -/
theorem clean_dataframe_spec (df cdf : DataFrame)
    (h : clean_dataframe df = some cdf) :
    cdf.rows = df.rows ∧ cdf.columns.length = df.columns.length ∧
      "ticker" ∈ cdf.columns := by
  rcases hfind : findTickerCol df.columns with _ | tc
  · rw [clean_dataframe, hfind] at h
    exact absurd h (by simp)
  · rw [clean_dataframe, hfind] at h
    have hcdf : cdf = ⟨df.columns.map (fun c => if c = tc then "ticker" else c), df.rows⟩ := by
      exact (Option.some_injective _ h).symm
    subst hcdf
    refine ⟨rfl, by simp [List.length_map], ?_⟩
    have htc : tc ∈ df.columns := by
      have hp := List.find?_some hfind
      exact (contains_iff_mem df.columns tc).mp hp
    exact List.mem_map.mpr ⟨tc, htc, by simp⟩

/-- Cleaning does not change emptiness. -/
theorem clean_dataframe_empty (df cdf : DataFrame)
    (h : clean_dataframe df = some cdf) : cdf.empty = df.empty := by
  obtain ⟨hrows, hlen, _⟩ := clean_dataframe_spec df cdf h
  rw [DataFrame.empty, DataFrame.empty, hrows]
  have : cdf.columns.isEmpty = df.columns.isEmpty := by
    rcases hc : cdf.columns with _ | ⟨a, as⟩
    · rcases hd : df.columns with _ | ⟨b, bs⟩
      · simp
      · rw [hc, hd] at hlen
        simp at hlen
    · rcases hd : df.columns with _ | ⟨b, bs⟩
      · rw [hc, hd] at hlen
        simp at hlen
      · simp
  rw [this]

/-! ### Claim theorems: fetch layer -/

/-- C5 (counterexample to the claim as stated): the walk's suffix test is
case-insensitive, so a file named `A.CSV` — whose name does not have the
literal suffix `.csv` — is returned by the recursive walk. -/
theorem C5_counterexample :
    get_csv_files_recursive
        (EntryList.cons (Entry.file "A.CSV" "data/A.CSV" "u" 10) EntryList.nil) =
      [⟨"A.CSV", "data/A.CSV", "u", 10⟩] ∧
    List.isSuffixOf ".csv".data "A.CSV".data = false := by
  constructor
  · rfl
  · decide

/-- C5 (amended): the recursive walk returns exactly the descriptors (name,
path, download URL, size) of the file items, in the root directory or any
subdirectory, whose lowercased name ends with `.csv`; no directory item and
no file failing that case-insensitive test is included. -/
theorem C5_walk_exact (t : EntryList) :
    get_csv_files_recursive t = (allFilesList t).filter (fun f => csvMatch f.name) ∧
    ∀ f, f ∈ get_csv_files_recursive t ↔ f ∈ allFilesList t ∧ csvMatch f.name = true := by
  refine ⟨walk_eq_filter t, fun f => ?_⟩
  rw [walk_eq_filter t]
  exact List.mem_filter

/-- C7: when the repository lookup returns HTTP 404, `fetch_csv_files` raises
the not-found/not-public message, and the result does not depend on the
repository's contents (no discovery or download happens). -/
theorem C7_404_message (username repository : String) (tree : EntryList) :
    fetch_csv_files username repository 404 tree =
      .error ("Repository " ++ username ++ "/" ++ repository ++
        " not found or is not public") ∧
    ∀ tree', fetch_csv_files username repository 404 tree =
      fetch_csv_files username repository 404 tree' :=
  ⟨rfl, fun _ => rfl⟩

/-- C10: with `max_retries ≥ 1`, the retry loop returns or raises within the
loop body, so the fall-through `Maximum retries exceeded` raise after the
loop is unreachable. -/
theorem C10_fallthrough_unreachable (net : Nat → Attempt) (max_retries : Nat)
    (h : 1 ≤ max_retries) :
    (make_request net max_retries).outcome ≠ .maxRetriesExceeded :=
  request_loop_no_fallthrough net max_retries max_retries 0 (Nat.add_zero _) h

/-- C10 witness: a concrete run (request exceptions, one allowed attempt)
ends by re-raising, not by the fall-through raise. -/
theorem C10_witness :
    1 ≤ 1 ∧ (make_request (fun _ => Attempt.reqError "boom") 1).outcome ≠
      .maxRetriesExceeded :=
  ⟨by decide, C10_fallthrough_unreachable (fun _ => Attempt.reqError "boom") 1 (by decide)⟩

/-- C3: `_make_request` makes at most 3 attempts; each backoff sleep is a
fixed 60 seconds when the corresponding attempt was rate limited and a fixed
2 seconds when it was a network failure; and if every attempt fails the call
raises instead of returning a response. -/
theorem C3_retry_policy (net : Nat → Attempt) :
    (make_request net 3).attempts ≤ 3 ∧
    (∀ i, i < (make_request net 3).sleeps.length →
      ((make_request net 3).sleeps.getD i 0 = 60 ∧ attemptRateLimited (net i) = true) ∨
      ((make_request net 3).sleeps.getD i 0 = 2 ∧ attemptNetFail (net i) = true)) ∧
    ((∀ i, i < 3 → attemptFails (net i) = true) →
      (make_request net 3).outcome.isOk = false) := by
  refine ⟨request_loop_attempts_le net 3 3 0, ?_, ?_⟩
  · intro i hi
    have hs := request_loop_sleeps net 3 3 0 i hi
    simpa using hs
  · intro hfail
    exact request_loop_all_fail net 3 3 0 (by omega) (fun i _ h2 => hfail i h2)

/-- C3 witness: three straight timeouts exhaust the retries and the call ends
by raising. -/
theorem C3_witness :
    (make_request (fun _ => Attempt.timeout) 3).outcome.isOk = false :=
  (C3_retry_policy (fun _ => Attempt.timeout)).2.2 (by decide)

/-! ### Helper lemmas: `_process_tickers` as a whole -/

/-- Success of `_process_tickers` is the single-`ticker`-label branch. -/
theorem process_tickers_ok_iff (sd : String) (df : DataFrame) (fs : FS)
    (rs : List TickerResult) (fs' : FS) :
    process_tickers sd df fs = .ok (rs, fs') ↔
      df.columns.count "ticker" = 1 ∧
      processGroups sd df.columns (tickerIdx df.columns)
        (groupsOf (tickerIdx df.columns) df.rows) fs = (rs, fs') := by
  rw [process_tickers]
  by_cases h : df.columns.count "ticker" = 1
  · simp [h, Prod.ext_iff]
  · by_cases h0 : df.columns.count "ticker" = 0 <;> simp [h, h0]

/-- Every result of a successful `_process_tickers` run is the record of one
group: its key, its size, zero duplicates removed, its output path. -/
theorem process_tickers_mem_results (sd : String) (df : DataFrame) (fs : FS)
    (rs : List TickerResult) (fs' : FS)
    (hrun : process_tickers sd df fs = .ok (rs, fs'))
    (r : TickerResult) (hr : r ∈ rs) :
    ∃ k, k ∈ groupKeys (tickerIdx df.columns) df.rows ∧
      r = ⟨k, (groupRows (tickerIdx df.columns) df.rows k).length, 0,
        outputPath sd k⟩ := by
  obtain ⟨-, hpair⟩ := (process_tickers_ok_iff sd df fs rs fs').mp hrun
  have hrs : rs = (groupsOf (tickerIdx df.columns) df.rows).map
      (fun g => ⟨g.1, g.2.length, 0, outputPath sd g.1⟩) := by
    have hfst := congrArg Prod.fst hpair
    rw [processGroups_results sd df.columns (tickerIdx df.columns) _ fs] at hfst
    exact hfst.symm
  rw [hrs] at hr
  obtain ⟨g, hg, hgr⟩ := List.mem_map.mp hr
  obtain ⟨k, hk, hkg⟩ := List.mem_map.mp hg
  refine ⟨k, hk, ?_⟩
  rw [← hgr, ← hkg]

/-- After a successful `_process_tickers` run, the output file of each result
holds its prior content — or, for a fresh file, a header line without the
ticker column — followed by the group's rows with the ticker column dropped. -/
theorem process_tickers_result_file (sd : String) (df : DataFrame) (fs : FS)
    (rs : List TickerResult) (fs' : FS)
    (hrun : process_tickers sd df fs = .ok (rs, fs'))
    (r : TickerResult) (hr : r ∈ rs) :
    lookupFile fs' r.output_file =
      some ((match lookupFile fs r.output_file with
             | some old => old
             | none => [df.columns.eraseIdx (tickerIdx df.columns)]) ++
            (groupRows (tickerIdx df.columns) df.rows r.ticker).map
              (fun row => row.eraseIdx (tickerIdx df.columns))) := by
  obtain ⟨-, hpair⟩ := (process_tickers_ok_iff sd df fs rs fs').mp hrun
  obtain ⟨k, hk, hkr⟩ := process_tickers_mem_results sd df fs rs fs' hrun r hr
  have hnd : ((groupsOf (tickerIdx df.columns) df.rows).map Prod.fst).Nodup := by
    rw [groupsOf_map_fst]
    exact nodup_groupKeys _ _
  have hg : (k, groupRows (tickerIdx df.columns) df.rows k) ∈
      groupsOf (tickerIdx df.columns) df.rows :=
    List.mem_map.mpr ⟨k, hk, rfl⟩
  have hw := processGroups_writes sd df.columns (tickerIdx df.columns)
    (groupsOf (tickerIdx df.columns) df.rows) fs hnd _ hg
  rw [congrArg Prod.snd hpair] at hw
  subst hkr
  simpa using hw

/-- Every row of the table ends up (with the ticker column dropped) in the
output file named after its ticker value. -/
theorem process_tickers_row_written (sd : String) (df : DataFrame) (fs : FS)
    (rs : List TickerResult) (fs' : FS)
    (hrun : process_tickers sd df fs = .ok (rs, fs'))
    (row : List String) (hrow : row ∈ df.rows) :
    ∃ content,
      lookupFile fs' (outputPath sd (tickerValue (tickerIdx df.columns) row)) =
        some content ∧
      row.eraseIdx (tickerIdx df.columns) ∈ content := by
  obtain ⟨-, hpair⟩ := (process_tickers_ok_iff sd df fs rs fs').mp hrun
  have hk : tickerValue (tickerIdx df.columns) row ∈
      groupKeys (tickerIdx df.columns) df.rows :=
    (mem_groupKeys _ _ _).mpr ⟨row, hrow, rfl⟩
  have hnd : ((groupsOf (tickerIdx df.columns) df.rows).map Prod.fst).Nodup := by
    rw [groupsOf_map_fst]
    exact nodup_groupKeys _ _
  have hg : (tickerValue (tickerIdx df.columns) row,
      groupRows (tickerIdx df.columns) df.rows (tickerValue (tickerIdx df.columns) row)) ∈
      groupsOf (tickerIdx df.columns) df.rows :=
    List.mem_map.mpr ⟨_, hk, rfl⟩
  have hw := processGroups_writes sd df.columns (tickerIdx df.columns)
    (groupsOf (tickerIdx df.columns) df.rows) fs hnd _ hg
  rw [congrArg Prod.snd hpair] at hw
  refine ⟨_, hw, ?_⟩
  apply List.mem_append.mpr
  right
  refine List.mem_map_of_mem _ ?_
  rw [groupRows, List.mem_filter]
  exact ⟨hrow, by simp⟩

/-! ### Claim theorems: process layer -/

/-- C1: in a processed file whose rows were grouped and written, every row
with ticker value `X` is written into `<save_dir>/X.csv`: the row (with the
ticker column dropped, as the code stores it) is a line of that file
afterwards. -/
theorem C1_row_in_ticker_file (sd : String) (df : DataFrame) (fs : FS)
    (rs : List TickerResult) (fs' : FS)
    (hrun : process_tickers sd df fs = .ok (rs, fs'))
    (row : List String) (hrow : row ∈ df.rows) :
    ∃ content,
      lookupFile fs' (outputPath sd (tickerValue (tickerIdx df.columns) row)) =
        some content ∧
      row.eraseIdx (tickerIdx df.columns) ∈ content :=
  process_tickers_row_written sd df fs rs fs' hrun row hrow

/-- C1 witness: a two-ticker table routes the `A` row into `data/A.csv`. -/
theorem C1_witness :
    ∃ content,
      lookupFile [("data/A.csv", [["close"], ["1"]]), ("data/B.csv", [["close"], ["2"]])]
        (outputPath "data" (tickerValue (tickerIdx ["ticker", "close"]) ["A", "1"])) =
        some content ∧
      (["A", "1"] : List String).eraseIdx (tickerIdx ["ticker", "close"]) ∈ content :=
  C1_row_in_ticker_file "data" ⟨["ticker", "close"], [["A", "1"], ["B", "2"]]⟩ []
    [⟨"A", 1, 0, "data/A.csv"⟩, ⟨"B", 1, 0, "data/B.csv"⟩]
    [("data/A.csv", [["close"], ["1"]]), ("data/B.csv", [["close"], ["2"]])]
    (by rfl) ["A", "1"] (by simp)

/-- C2: when a group's output file already exists, the run only appends: the
old lines stay as the file's prefix, the reported `duplicates_removed` is 0,
and the number of appended lines is the group's row count, which is also the
reported `rows_processed`. -/
theorem C2_append_only (sd : String) (df : DataFrame) (fs : FS)
    (rs : List TickerResult) (fs' : FS) (r : TickerResult)
    (old : List (List String))
    (hrun : process_tickers sd df fs = .ok (rs, fs'))
    (hr : r ∈ rs)
    (hold : lookupFile fs r.output_file = some old) :
    r.duplicates_removed = 0 ∧
    ∃ appended,
      lookupFile fs' r.output_file = some (old ++ appended) ∧
      appended.length = r.rows_processed ∧
      r.rows_processed =
        (groupRows (tickerIdx df.columns) df.rows r.ticker).length := by
  obtain ⟨k, hk, hkr⟩ := process_tickers_mem_results sd df fs rs fs' hrun r hr
  have hfile := process_tickers_result_file sd df fs rs fs' hrun r hr
  rw [hold] at hfile
  refine ⟨by rw [hkr], ?_⟩
  refine ⟨_, hfile, ?_, by rw [hkr]⟩
  rw [List.length_map, hkr]

/-- C2 witness: appending the `A` group to an existing `data/A.csv`. -/
theorem C2_witness :
    (⟨"A", 1, 0, "data/A.csv"⟩ : TickerResult).duplicates_removed = 0 ∧
    ∃ appended,
      lookupFile [("data/A.csv", [["close"], ["0"], ["1"]]), ("data/B.csv", [["close"], ["2"]])]
        (⟨"A", 1, 0, "data/A.csv"⟩ : TickerResult).output_file =
        some ([["close"], ["0"]] ++ appended) ∧
      appended.length = (⟨"A", 1, 0, "data/A.csv"⟩ : TickerResult).rows_processed ∧
      (⟨"A", 1, 0, "data/A.csv"⟩ : TickerResult).rows_processed =
        (groupRows (tickerIdx ["ticker", "close"])
          [["A", "1"], ["B", "2"]] "A").length :=
  C2_append_only "data" ⟨["ticker", "close"], [["A", "1"], ["B", "2"]]⟩
    [("data/A.csv", [["close"], ["0"]])]
    [⟨"A", 1, 0, "data/A.csv"⟩, ⟨"B", 1, 0, "data/B.csv"⟩]
    [("data/A.csv", [["close"], ["0"], ["1"]]), ("data/B.csv", [["close"], ["2"]])]
    ⟨"A", 1, 0, "data/A.csv"⟩ [["close"], ["0"]]
    (by rfl) (by simp) (by rfl)

/-- The no-candidate path of `process_csv_file`: the filesystem is untouched
and a failure result is returned. -/
theorem process_csv_file_no_ticker (sd fname : String) (df : DataFrame)
    (fs : FS) (hnone : findTickerCol df.columns = none) :
    (process_csv_file sd fname (.ok df) fs).2 = fs ∧
    ∃ msg, (process_csv_file sd fname (.ok df) fs).1 = .err msg := by
  by_cases hempty : df.empty = true
  · constructor
    · simp [process_csv_file, hempty]
    · exact ⟨"File " ++ fname ++ " is empty", by simp [process_csv_file, hempty]⟩
  · constructor
    · simp [process_csv_file, hempty, clean_dataframe, hnone]
    · exact ⟨"File " ++ fname ++ " has no valid data after cleaning",
        by simp [process_csv_file, hempty, clean_dataframe, hnone]⟩

/-- C6: the ticker column is the first name of the fixed candidate list
`['symbol', 'ticker', 'Symbol', 'Ticker', 'SYMBOL', 'TICKER']` occurring
among the table's columns; when no candidate occurs the file is skipped with
a failure result and the filesystem is left untouched. -/
theorem C6_ticker_column_choice (df : DataFrame) (sd fname : String) (fs : FS) :
    (∀ t, findTickerCol df.columns = some t →
      ∃ i, i < ticker_columns.length ∧ ticker_columns.getD i "" = t ∧
        t ∈ df.columns ∧
        ∀ j, j < i → ticker_columns.getD j "" ∉ df.columns) ∧
    (findTickerCol df.columns = none →
      (∀ c ∈ ticker_columns, c ∉ df.columns) ∧
      (process_csv_file sd fname (.ok df) fs).2 = fs ∧
      ∃ msg, (process_csv_file sd fname (.ok df) fs).1 = .err msg) := by
  constructor
  · intro t ht
    obtain ⟨i, hi, hget, hp, hfirst⟩ :=
      find?_first (fun c => df.columns.contains c) "" ticker_columns t ht
    refine ⟨i, hi, hget, (contains_iff_mem _ _).mp hp, fun j hj hmem => ?_⟩
    have hj' := hfirst j hj
    rw [(contains_iff_mem _ _).mpr hmem] at hj'
    exact Bool.true_eq_false.mp hj'
  · intro hnone
    have hall := List.find?_eq_none.mp hnone
    refine ⟨fun c hc hmem => hall c hc ((contains_iff_mem _ _).mpr hmem), ?_⟩
    exact process_csv_file_no_ticker sd fname df fs hnone

/-- C6 witness: a table with only a `foo` column is skipped untouched; a
table with a `Symbol` column picks `Symbol`, the third candidate, with the
two earlier candidates absent. -/
theorem C6_witness :
    ((∀ c ∈ ticker_columns, c ∉ (⟨["foo"], [["x"]]⟩ : DataFrame).columns) ∧
      (process_csv_file "d" "f.csv" (.ok ⟨["foo"], [["x"]]⟩) []).2 = [] ∧
      ∃ msg, (process_csv_file "d" "f.csv" (.ok ⟨["foo"], [["x"]]⟩) []).1 = .err msg) ∧
    ∃ i, i < ticker_columns.length ∧ ticker_columns.getD i "" = "Symbol" ∧
      "Symbol" ∈ (⟨["Symbol", "close"], [["A", "1"]]⟩ : DataFrame).columns ∧
      ∀ j, j < i → ticker_columns.getD j "" ∉
        (⟨["Symbol", "close"], [["A", "1"]]⟩ : DataFrame).columns :=
  ⟨(C6_ticker_column_choice ⟨["foo"], [["x"]]⟩ "d" "f.csv" []).2 (by rfl),
   (C6_ticker_column_choice ⟨["Symbol", "close"], [["A", "1"]]⟩ "d" "f.csv" []).1
     "Symbol" (by rfl)⟩

/-- C8: after cleaning renamed the identified column to `ticker`, the write
drops that column: no file line keeps a `ticker` label (the header written
for a fresh file carries no `ticker`), the stored row is the source row with
exactly the ticker cell removed, and all other cells are written unchanged
— cells before the ticker column at their index, cells after it shifted
down by one. -/
theorem C8_ticker_column_dropped (sd : String) (df cdf : DataFrame) (fs : FS)
    (rs : List TickerResult) (fs' : FS) (row : List String)
    (hclean : clean_dataframe df = some cdf)
    (hrun : process_tickers sd cdf fs = .ok (rs, fs'))
    (hrow : row ∈ cdf.rows)
    (hlen : row.length = cdf.columns.length) :
    "ticker" ∉ cdf.columns.eraseIdx (tickerIdx cdf.columns) ∧
    ∃ content,
      lookupFile fs' (outputPath sd (tickerValue (tickerIdx cdf.columns) row)) =
        some content ∧
      row.eraseIdx (tickerIdx cdf.columns) ∈ content ∧
      (row.eraseIdx (tickerIdx cdf.columns)).length + 1 = row.length ∧
      (∀ j, j < tickerIdx cdf.columns →
        (row.eraseIdx (tickerIdx cdf.columns)).getD j "" = row.getD j "") ∧
      (∀ j, tickerIdx cdf.columns ≤ j →
        (row.eraseIdx (tickerIdx cdf.columns)).getD j "" = row.getD (j + 1) "") := by
  obtain ⟨hcount, -⟩ := (process_tickers_ok_iff sd cdf fs rs fs').mp hrun
  obtain ⟨-, -, hmem⟩ := clean_dataframe_spec df cdf hclean
  have hidx : tickerIdx cdf.columns < cdf.columns.length := tickerIdx_lt _ hmem
  have hidxrow : tickerIdx cdf.columns < row.length := by rw [hlen]; exact hidx
  obtain ⟨content, hcontent, hin⟩ :=
    process_tickers_row_written sd cdf fs rs fs' hrun row hrow
  refine ⟨ticker_notMem_eraseIdx cdf.columns hcount, content, hcontent, hin, ?_, ?_, ?_⟩
  · rw [List.length_eraseIdx, if_pos hidxrow]
    omega
  · exact fun j hj => getD_eraseIdx_lt "" row _ j hj
  · exact fun j hj => getD_eraseIdx_ge "" row _ j hidxrow hj

/-- C8 witness: cleaning `["symbol", "close"]` and writing the single `A`
group drops the ticker column from the stored header and row. -/
theorem C8_witness :
    "ticker" ∉ (["ticker", "close"] : List String).eraseIdx
      (tickerIdx ["ticker", "close"]) ∧
    ∃ content,
      lookupFile [("d/A.csv", [["close"], ["1"]])]
        (outputPath "d" (tickerValue (tickerIdx ["ticker", "close"]) ["A", "1"])) =
        some content ∧
      (["A", "1"] : List String).eraseIdx (tickerIdx ["ticker", "close"]) ∈ content ∧
      ((["A", "1"] : List String).eraseIdx (tickerIdx ["ticker", "close"])).length + 1 =
        (["A", "1"] : List String).length ∧
      (∀ j, j < tickerIdx ["ticker", "close"] →
        ((["A", "1"] : List String).eraseIdx (tickerIdx ["ticker", "close"])).getD j "" =
          (["A", "1"] : List String).getD j "") ∧
      (∀ j, tickerIdx ["ticker", "close"] ≤ j →
        ((["A", "1"] : List String).eraseIdx (tickerIdx ["ticker", "close"])).getD j "" =
          (["A", "1"] : List String).getD (j + 1) "") :=
  C8_ticker_column_dropped "d" ⟨["symbol", "close"], [["A", "1"]]⟩
    ⟨["ticker", "close"], [["A", "1"]]⟩ []
    [⟨"A", 1, 0, "d/A.csv"⟩] [("d/A.csv", [["close"], ["1"]])] ["A", "1"]
    (by rfl) (by rfl) (by simp) (by rfl)

/-- C9: on a successfully processed file with two or more distinct tickers,
the result returned to the caller carries only the first group's ticker,
duplicates_removed and rows_processed — even though the later groups were
also written to their own files (the second group's file exists below). -/
theorem C9_first_result_only (sd fname : String) (df cdf : DataFrame) (fs : FS)
    (r0 r1 : TickerResult) (rest : List TickerResult) (fs' : FS)
    (hne : df.empty = false)
    (hclean : clean_dataframe df = some cdf)
    (hrun : process_tickers sd cdf fs = .ok (r0 :: r1 :: rest, fs')) :
    process_csv_file sd fname (.ok df) fs =
      (.ok r0.ticker r0.duplicates_removed r0.rows_processed, fs') ∧
    ∃ c1, lookupFile fs' r1.output_file = some c1 := by
  have hcne : cdf.empty = false := by
    rw [clean_dataframe_empty df cdf hclean]
    exact hne
  constructor
  · simp [process_csv_file, hne, hclean, hcne, hrun]
  · exact ⟨_, process_tickers_result_file sd cdf fs _ fs' hrun r1 (by simp)⟩

/-- C9 witness: a file with tickers `A` and `B` reports only `A`'s numbers,
while `B`'s file was written too. -/
theorem C9_witness :
    process_csv_file "d" "f.csv"
        (.ok ⟨["ticker", "close"], [["A", "1"], ["B", "2"]]⟩) [] =
      (.ok (⟨"A", 1, 0, "d/A.csv"⟩ : TickerResult).ticker
        (⟨"A", 1, 0, "d/A.csv"⟩ : TickerResult).duplicates_removed
        (⟨"A", 1, 0, "d/A.csv"⟩ : TickerResult).rows_processed,
        [("d/A.csv", [["close"], ["1"]]), ("d/B.csv", [["close"], ["2"]])]) ∧
    ∃ c1, lookupFile [("d/A.csv", [["close"], ["1"]]), ("d/B.csv", [["close"], ["2"]])]
      (⟨"B", 1, 0, "d/B.csv"⟩ : TickerResult).output_file = some c1 :=
  C9_first_result_only "d" "f.csv" ⟨["ticker", "close"], [["A", "1"], ["B", "2"]]⟩
    ⟨["ticker", "close"], [["A", "1"], ["B", "2"]]⟩ []
    ⟨"A", 1, 0, "d/A.csv"⟩ ⟨"B", 1, 0, "d/B.csv"⟩ []
    [("d/A.csv", [["close"], ["1"]]), ("d/B.csv", [["close"], ["2"]])]
    (by rfl) (by rfl) (by rfl)

/-- C4: an exception while processing one file is caught: `process_csv_file`
returns a failure result carrying the error message instead of propagating,
the filesystem is untouched, and the CLI loop goes on — every listed file is
accounted for as either processed or skipped. -/
theorem C4_errors_caught_run_continues (sd fname e : String) (fs : FS)
    (files : List (String × Except String DataFrame)) :
    process_csv_file sd fname (.error e) fs =
      (.err ("Error processing " ++ fname ++ ": " ++ e), fs) ∧
    (cliLoop sd files fs).1 + (cliLoop sd files fs).2.1 = files.length := by
  constructor
  · rfl
  · induction files generalizing fs with
    | nil => simp [cliLoop]
    | cons f rest ih =>
      obtain ⟨fn, dl⟩ := f
      simp only [cliLoop]
      have htot := ih ((process_csv_file sd fn dl fs).2)
      cases hres : (process_csv_file sd fn dl fs).1 with
      | ok t d r =>
        simp only [hres, List.length_cons]
        omega
      | err m =>
        simp only [hres, List.length_cons]
        omega

end Gitdata
